import Mathlib

/-!
Shallow embedding of `src/scrape_city_infobox.py`, a single-file pipeline
that fetches a Wikipedia page, parses its infobox table into a
label-to-value map, selects a fixed set of canonical fields, and prints
them from a CLI.  HTML documents are modelled as trees of text and
element nodes; BeautifulSoup tree searches become pre-order traversals.
-/

namespace Scrape

/-- A node of the parsed markup tree: either a text node or an element
with a tag name, a (possibly empty) list of CSS classes, an optional
`id` attribute, and children.  This models the BeautifulSoup document
tree that `parse_infobox` traverses. -/
inductive Node where
  | text (s : String)
  | elem (tag : String) (classes : List String) (idAttr : Option String) (children : List Node)
deriving Repr

/-- A whole document is the forest of top-level nodes. -/
abbrev Doc := List Node

/-- Whitespace test matching Python `str.split()` and `str.strip()` on the
ASCII whitespace that occurs in this program's data. -/
def isWs (c : Char) : Bool :=
  c == ' ' || c == '\t' || c == '\n' || c == '\r'

/-- Python `str.strip()`: drop leading and trailing whitespace characters. -/
def pyStrip (s : String) : String :=
  String.mk (((s.data.dropWhile isWs).reverse.dropWhile isWs).reverse)

/-- Helper for `pyWords`: accumulate the current word (reversed) while
scanning the character list. -/
def pyWordsAux : List Char → List Char → List String
  | [], acc => if acc.isEmpty then [] else [String.mk acc.reverse]
  | c :: cs, acc =>
    if isWs c then
      if acc.isEmpty then pyWordsAux cs [] else String.mk acc.reverse :: pyWordsAux cs []
    else
      pyWordsAux cs (c :: acc)

/-- Python `str.split()` with no argument: split on runs of whitespace,
dropping empty pieces. -/
def pyWords (s : String) : List String :=
  pyWordsAux s.data []

/-- Embeds `" ".join(text.split())` from lines 53-54 and 61 of the source:
collapse runs of whitespace to single spaces and trim both ends. -/
def normWs (s : String) : String :=
  String.intercalate " " (pyWords s)

mutual

/-- All text-node strings below a node, in document (pre-order) order. -/
def Node.texts : Node → List String
  | .text s => [s]
  | .elem _ _ _ cs => textsForest cs

/-- All text-node strings in a forest, in document order. -/
def textsForest : List Node → List String
  | [] => []
  | n :: ns => n.texts ++ textsForest ns

end

/-- BeautifulSoup `get_text(separator=sep, strip=True)`: each descendant
text fragment is stripped, empty fragments are dropped, and the rest are
joined with the separator. -/
def getTextStrip (sep : String) (n : Node) : String :=
  String.intercalate sep ((n.texts.map pyStrip).filter (fun s => !s.isEmpty))

mutual

/-- BeautifulSoup `find` on a single node: the node itself if it is an
element satisfying `p`, else the first satisfying element among its
descendants (pre-order). -/
def findNode (p : Node → Bool) : Node → Option Node
  | .text _ => none
  | .elem t c i cs =>
    if p (.elem t c i cs) then some (.elem t c i cs) else findForest p cs

/-- BeautifulSoup `find` over a forest of nodes, in document order. -/
def findForest (p : Node → Bool) : List Node → Option Node
  | [] => none
  | n :: ns =>
    match findNode p n with
    | some m => some m
    | none => findForest p ns

end

mutual

/-- All elements satisfying `p` in a subtree, in document order, the root
itself included when it matches. -/
def subtreeAll (p : Node → Bool) : Node → List Node
  | .text _ => []
  | .elem t c i cs =>
    (if p (.elem t c i cs) then [Node.elem t c i cs] else []) ++ forestAll p cs

/-- All elements satisfying `p` in a forest, in document order. -/
def forestAll (p : Node → Bool) : List Node → List Node
  | [] => []
  | n :: ns => subtreeAll p n ++ forestAll p ns

end

/-- BeautifulSoup `find_all` on a node: all matching elements among its
strict descendants, in document order. -/
def findAllNode (p : Node → Bool) : Node → List Node
  | .text _ => []
  | .elem _ _ _ cs => forestAll p cs

mutual

/-- All element nodes below (and including) a node, pre-order.  Used to
state "the document contains an element such that ..." independently of
the `find` traversal. -/
def Node.elems : Node → List Node
  | .text _ => []
  | .elem t c i cs => .elem t c i cs :: elemsForest cs

/-- All element nodes of a forest, pre-order. -/
def elemsForest : List Node → List Node
  | [] => []
  | n :: ns => n.elems ++ elemsForest ns

end

/-- BeautifulSoup matching of a `class_` string filter against a tag's
multi-valued class attribute: the filter matches if it equals one of the
individual class values, or if it equals the whole space-joined class
string (this is how `class_="infobox geography vcard"` matches). -/
def matchesClass (q : String) (classes : List String) : Bool :=
  classes.contains q || String.intercalate " " classes == q

/-- Tag/class predicate for `soup.find("table", class_=q)`. -/
def isTableWithClass (q : String) : Node → Bool
  | .text _ => false
  | .elem t c _ _ => t == "table" && matchesClass q c

/-- Predicate for `soup.find(class_="geo")`: any element whose class
attribute matches `"geo"`. -/
def isGeoElem : Node → Bool
  | .text _ => false
  | .elem _ c _ _ => matchesClass "geo" c

/-- Predicate for `soup.find(id="firstHeading")`. -/
def isFirstHeading : Node → Bool
  | .text _ => false
  | .elem _ _ i _ => i == some "firstHeading"

/-- Predicate for elements with a given tag name, as in `row.find("th")`. -/
def hasTag (t : String) : Node → Bool
  | .text _ => false
  | .elem t' _ _ _ => t' == t

/-- Python dict assignment `info[label] = value` on an insertion-ordered
association list: overwrite in place if the key exists, else append. -/
def dictInsert (m : List (String × String)) (k v : String) : List (String × String) :=
  if m.any (fun p => p.1 == k) then
    m.map (fun p => if p.1 == k then (k, v) else p)
  else
    m ++ [(k, v)]

/-- Python `info.setdefault(k, v)` restricted to its effect on the dict:
insert `(k, v)` at the end only when `k` is absent. -/
def dictSetdefault (m : List (String × String)) (k v : String) : List (String × String) :=
  if m.any (fun p => p.1 == k) then m else m ++ [(k, v)]

/-- Lookup in the insertion-ordered dict model. -/
def dictFind? (m : List (String × String)) (k : String) : Option String :=
  (m.find? (fun p => p.1 == k)).map (fun p => p.2)

/-- Embeds lines 41-45 of the source: try the three table-class variants in
priority order, Python `or` taking the first non-`None` result. -/
def findInfobox (doc : Doc) : Option Node :=
  match findForest (isTableWithClass "infobox geography vcard") doc with
  | some t => some t
  | none =>
    match findForest (isTableWithClass "infobox vcard") doc with
    | some t => some t
    | none => findForest (isTableWithClass "infobox") doc

/-- Normalized text of a cell or geo element:
`" ".join(node.get_text(separator=" ", strip=True).split())`. -/
def cellText (n : Node) : String :=
  normWs (getTextStrip " " n)

/-- Embeds the extraction half of the row loop, lines 50-55 of the source:
find the first `th` and `td` descendants of the row and normalize their
texts; the row contributes a pair exactly when both cells exist and both
normalized strings are non-empty. -/
def rowPair? (row : Node) : Option (String × String) :=
  match findNode (hasTag "th") row with
  | none => none
  | some headerCell =>
    match findNode (hasTag "td") row with
    | none => none
    | some dataCell =>
      let label := cellText headerCell
      let valueText := cellText dataCell
      if !label.isEmpty && !valueText.isEmpty then some (label, valueText) else none

/-- Embeds the body of the row loop: insert the row's pair, if any, with
Python dict assignment (line 56 of the source). -/
def insertRow (info : List (String × String)) (row : Node) : List (String × String) :=
  match rowPair? row with
  | some lv => dictInsert info lv.1 lv.2
  | none => info

/-- The label-to-value pairs the row loop inserts, in row-scan order. -/
def rowPairs (tb : Node) : List (String × String) :=
  (findAllNode (hasTag "tr") tb).filterMap rowPair?

/-- Embeds lines 47-56 of the source: the dict built by scanning the rows
of the matched infobox table, or empty when no table matched. -/
def tableFields (doc : Doc) : List (String × String) :=
  match findInfobox doc with
  | none => []
  | some tb => (findAllNode (hasTag "tr") tb).foldl insertRow []

/-- Embeds `soup.find(class_="geo")`, line 59 of the source. -/
def findGeo (doc : Doc) : Option Node :=
  findForest isGeoElem doc

/-- Embeds `parse_infobox` (lines 29-63 of the source) at the document-tree
level: page title from the `firstHeading` element, fields from the infobox
table rows, then `info.setdefault("Coordinates", ...)` from the first
`geo`-classed element when present. -/
def parse_infobox (doc : Doc) : Option String × List (String × String) :=
  let pageTitle := (findForest isFirstHeading doc).map (getTextStrip "")
  let info := tableFields doc
  let info :=
    match findGeo doc with
    | some g => dictSetdefault info "Coordinates" (cellText g)
    | none => info
  (pageTitle, info)

/-- ASCII lowercasing, modelling Python `str.lower()` on the labels and
hints this program compares (all ASCII). -/
def pyLower (s : String) : String :=
  String.mk (s.data.map Char.toLower)

/-- Prefix test on character lists. -/
def isPrefixList : List Char → List Char → Bool
  | [], _ => true
  | _ :: _, [] => false
  | a :: as, b :: bs => a == b && isPrefixList as bs

/-- Contiguous-sublist test on character lists: `needle` occurs somewhere
inside `hay`. -/
def isInfixList : List Char → List Char → Bool
  | needle, [] => needle.isEmpty
  | needle, c :: cs => isPrefixList needle (c :: cs) || isInfixList needle cs

/-- Python `needle in hay` on strings: contiguous substring containment. -/
def strContains (hay needle : String) : Bool :=
  isInfixList needle.data hay.data

/-- The fixed canonical field table `desired_to_label_hints` of
`select_interesting_fields`, in source order (lines 71-86). -/
def desired_to_label_hints : List (String × List String) :=
  [("Country", ["Country"]),
   ("State/Province", ["State", "Province", "Region", "Prefecture"]),
   ("County/District", ["County", "District", "Municipality"]),
   ("Settlement type", ["Settlement type", "Type"]),
   ("Incorporated/Founded", ["Incorporated", "Established", "Founded"]),
   ("Mayor/Leader", ["Mayor", "Leader", "Governing body"]),
   ("Area total", ["Area total", "Area", "Area Total"]),
   ("Elevation", ["Elevation"]),
   ("Population", ["Population", "Population Total", "Population ("]),
   ("Demonym", ["Demonym"]),
   ("Time zone", ["Time zone", "Timezone"]),
   ("Postal code", ["Postal code", "Postcode", "ZIP codes"]),
   ("FIPS/GNIS", ["FIPS code", "GNIS feature ID"]),
   ("Coordinates", ["Coordinates"])]

/-- Embeds the nested hint loop of `select_interesting_fields`
(lines 93-101): try each hint in order; for a hint, scan the labels of
`info` in insertion order and take the value of the first label whose
lowercased text contains the lowercased hint; stop at the first success. -/
def findHintValue (info : List (String × String)) : List String → Option String
  | [] => none
  | hint :: hints =>
    match info.find? (fun p => strContains (pyLower p.1) (pyLower hint)) with
    | some p => some p.2
    | none => findHintValue info hints

/-- Embeds `select_interesting_fields` (lines 66-104): for each canonical
entry in order, append `(output_key, found_value)` when some hint matched. -/
def select_interesting_fields (info : List (String × String)) : List (String × String) :=
  desired_to_label_hints.foldl
    (fun selected entry =>
      match findHintValue info entry.2 with
      | some v => selected ++ [(entry.1, v)]
      | none => selected)
    []

/-- Transcription of the selector as the SPEC words it (spec §4.3): for
each canonical entry, scan its hints in order; for each hint, scan all
label keys of `fields` in insertion order and take the value of the first
label whose lowercased text contains the lowercased hint as a substring;
stop scanning hints once a value is found; omit the entry when no hint
matches any label. -/
def selectSpec (info : List (String × String)) : List (String × String) :=
  desired_to_label_hints.filterMap (fun entry =>
    (entry.2.findSome? (fun hint =>
      (info.find? (fun p => strContains (pyLower p.1) (pyLower hint))).map
        (fun p => p.2))).map
      (fun v => (entry.1, v)))

/-- Python `str.replace(old, new)` on character lists: at each position,
if `pat` (non-empty) starts there, emit `rep` and skip past the match,
else keep the character.  With an empty pattern the input is returned
unchanged (the source only ever calls this with the one-character pattern
`" "`). -/
def strReplace (pat rep : List Char) : List Char → List Char
  | [] => []
  | c :: cs =>
    if pat.isEmpty then
      c :: cs
    else if isPrefixList pat (c :: cs) then
      rep ++ strReplace pat rep (List.drop (pat.length - 1) cs)
    else
      c :: strReplace pat rep cs
termination_by s => s.length
decreasing_by
  · simp only [List.length_cons]
    have := List.length_drop (pat.length - 1) cs
    omega
  · simp [List.length_cons]

/-- Embeds `city_name.replace(" ", "_")`, line 21 of the source. -/
def canonicalName (cityName : String) : String :=
  String.mk (strReplace [' '] ['_'] cityName.data)

/-- Embeds the URL construction of `fetch_city_page_html`, line 22. -/
def requestUrl (cityName : String) : String :=
  "https://en.wikipedia.org/wiki/" ++ canonicalName cityName

/-- Outcome of the one `requests.get` call as `main` observes it:
either an HTTP error status (`requests.HTTPError`, caught first), a
network/connection failure (any other `requests.RequestException`), or a
successful response.  Success carries the fetched document (already at the
tree level of the `Node` model — the HTML parser is the external library)
and the final resolved URL. -/
inductive FetchOutcome where
  | httpError (message : String)
  | networkError (message : String)
  | success (doc : Doc) (resolvedUrl : String)

/-- Observable result of one CLI run: the process exit status, the lines
printed in order, and whether the fetch (the only network call) was
reached. -/
structure CliResult where
  exitCode : Nat
  output : List String
  networkAttempted : Bool
deriving Repr, DecidableEq

/-- The usage line printed on a missing argument (line 109). -/
def usageMessage : String :=
  "Usage: python scrape_city_infobox.py \"City Name\""

/-- Message when `parse_infobox` produced no fields (line 128). -/
def noInfoboxMessage : String :=
  "Could not find an infobox on the page or it is empty."

/-- Message when fields were parsed but none matched (line 133). -/
def noCommonFieldsMessage : String :=
  "No common local information fields were detected."

/-- Embeds `main` (lines 107-138) as a function of the argument vector
(`argv`, including the program name in position 0, as `sys.argv` does) and
the outcome the fetch would have: checks the argument count, dispatches on
the transport outcome, then parses, selects, and prints.  `page_title or
city_name` is Python truthiness: an absent or EMPTY title falls back to
the query text. -/
def mainModel (argv : List String) (fetch : FetchOutcome) : CliResult :=
  if argv.length < 2 then
    { exitCode := 1, output := [usageMessage], networkAttempted := false }
  else
    let cityName := String.intercalate " " (argv.drop 1)
    match fetch with
    | .httpError m =>
      { exitCode := 2, output := ["HTTP error fetching page: " ++ m], networkAttempted := true }
    | .networkError m =>
      { exitCode := 2, output := ["Network error fetching page: " ++ m], networkAttempted := true }
    | .success doc resolvedUrl =>
      let parsed := parse_infobox doc
      let shownTitle :=
        match parsed.1 with
        | some t => if t.isEmpty then cityName else t
        | none => cityName
      let headerLines := ["Title: " ++ shownTitle, "Source: " ++ resolvedUrl]
      if parsed.2.isEmpty then
        { exitCode := 0, output := headerLines ++ [noInfoboxMessage], networkAttempted := true }
      else
        let interesting := select_interesting_fields parsed.2
        if interesting.isEmpty then
          { exitCode := 0, output := headerLines ++ [noCommonFieldsMessage],
            networkAttempted := true }
        else
          { exitCode := 0,
            output := headerLines ++ interesting.map (fun p => p.1 ++ ": " ++ p.2),
            networkAttempted := true }

/-- Concrete document: an infobox table with one Population row whose data
cell text carries extra whitespace. -/
def docPopulation : Doc :=
  [Node.elem "table" ["infobox"] none
    [Node.elem "tr" [] none
      [Node.elem "th" [] none [Node.text "Population"],
       Node.elem "td" [] none [Node.text "  38,000,000  \n "]]]]

/-- Concrete document: a lone `geo`-classed element with coordinate text
and no table at all. -/
def docGeoOnly : Doc :=
  [Node.elem "span" ["geo"] none [Node.text "48.86; 2.35"]]

/-- Concrete document: a `geo`-classed element whose text is empty. -/
def docGeoEmpty : Doc :=
  [Node.elem "span" ["geo"] none []]

/-- Concrete document with neither a qualifying table nor a geo element. -/
def docPlain : Doc :=
  [Node.elem "p" [] none [Node.text "nothing here"]]

/-- Concrete infobox table with two rows whose headers both normalize to
"Elevation" but whose data cells differ. -/
def tblDupElevation : Node :=
  Node.elem "table" ["infobox"] none
    [Node.elem "tr" [] none
      [Node.elem "th" [] none [Node.text "Elevation"],
       Node.elem "td" [] none [Node.text "10 m"]],
     Node.elem "tr" [] none
      [Node.elem "th" [] none [Node.text "Elevation"],
       Node.elem "td" [] none [Node.text "520 m"]]]

/-- Concrete document wrapping `tblDupElevation`. -/
def docDupElevation : Doc :=
  [tblDupElevation]

/-- Concrete geo element used together with a table that already has a
Coordinates row. -/
def geoSpan : Node :=
  Node.elem "span" ["geo"] none [Node.text "9.9; 9.9"]

/-- Concrete document: an infobox table with a Coordinates row AND a geo
element with different text. -/
def docCoordBoth : Doc :=
  [Node.elem "table" ["infobox"] none
    [Node.elem "tr" [] none
      [Node.elem "th" [] none [Node.text "Coordinates"],
       Node.elem "td" [] none [Node.text "1°N 2°E"]]],
   geoSpan]

end Scrape


namespace Scrape

/-- Overwriting an existing key: the lookup of that key afterwards sees the
new value. -/
theorem find?_map_overwrite_eq (m : List (String × String)) (k v : String)
    (h : m.any (fun p => p.1 == k) = true) :
    List.find? (fun p => p.1 == k) (m.map fun p => if p.1 == k then (k, v) else p) =
      some (k, v) := by
  induction m with
  | nil => simp at h
  | cons p ps ih =>
    by_cases hp : p.1 = k
    · rw [List.map_cons, List.find?_cons]
      simp [hp]
    · have hp' : (p.1 == k) = false := by simp [hp]
      have hps : ps.any (fun p => p.1 == k) = true := by
        simpa [List.any_cons, hp'] using h
      have hfp : (if (p.1 == k) = true then (k, v) else p) = p := by
        rw [hp']
        simp
      rw [List.map_cons, hfp, List.find?_cons]
      simp only [hp']
      exact ih hps

/-- Overwriting key `k` does not disturb lookups of other keys. -/
theorem find?_map_overwrite_ne (m : List (String × String)) (k v k' : String)
    (hne : k ≠ k') :
    List.find? (fun p => p.1 == k') (m.map fun p => if p.1 == k then (k, v) else p) =
      List.find? (fun p => p.1 == k') m := by
  induction m with
  | nil => simp
  | cons p ps ih =>
    by_cases hp : p.1 = k
    · have hk : (k == k') = false := by simp [hne]
      have hp2 : (p.1 == k') = false := by simp [hp, hne]
      have hfp : (if (p.1 == k) = true then (k, v) else p) = (k, v) := by
        simp [hp]
      rw [List.map_cons, hfp, List.find?_cons, List.find?_cons]
      simp only [hk, hp2]
      exact ih
    · have hp' : (p.1 == k) = false := by simp [hp]
      have hfp : (if (p.1 == k) = true then (k, v) else p) = p := by
        rw [hp']
        simp
      rw [List.map_cons, hfp, List.find?_cons, List.find?_cons]
      cases hq : (p.1 == k') with
      | true => rfl
      | false => exact ih

/-- Lookup after Python dict assignment: the assigned key reads back the
new value, all other keys are unchanged. -/
theorem dictFind?_dictInsert (m : List (String × String)) (k v k' : String) :
    dictFind? (dictInsert m k v) k' = if k = k' then some v else dictFind? m k' := by
  unfold dictInsert dictFind?
  by_cases hmem : m.any (fun p => p.1 == k) = true
  · rw [if_pos hmem]
    by_cases hk : k = k'
    · subst hk
      rw [find?_map_overwrite_eq m k v hmem]
      simp
    · rw [find?_map_overwrite_ne m k v k' hk, if_neg hk]
  · rw [if_neg hmem]
    have hnone : List.find? (fun p => p.1 == k) m = none := by
      rw [List.find?_eq_none]
      intro x hx hbx
      exact hmem (List.any_eq_true.mpr ⟨x, hx, hbx⟩)
    by_cases hk : k = k'
    · subst hk
      simp [List.find?_append, hnone]
    · have hkk : (k == k') = false := by simp [hk]
      simp [List.find?_append, List.find?_cons, hkk, hk, Option.or]
      cases List.find? (fun p => p.1 == k') m <;> simp

/-- Membership after Python dict assignment: every pair either is the
assigned one or was already present. -/
theorem mem_dictInsert (m : List (String × String)) (k v : String)
    (p : String × String) (hp : p ∈ dictInsert m k v) : p = (k, v) ∨ p ∈ m := by
  unfold dictInsert at hp
  by_cases hmem : m.any (fun q => q.1 == k) = true
  · rw [if_pos hmem] at hp
    rcases List.mem_map.mp hp with ⟨q, hq, hfq⟩
    by_cases hqk : q.1 = k
    · left
      simp [hqk] at hfq
      exact hfq.symm
    · right
      have : (if (q.1 == k) = true then (k, v) else q) = q := by
        simp [hqk]
      rw [← hfq, this]
      exact hq
  · rw [if_neg hmem] at hp
    rcases List.mem_append.mp hp with h | h
    · exact Or.inr h
    · exact Or.inl (List.mem_singleton.mp h)

/-- Membership after `setdefault`: every pair either was present or is the
defaulted one. -/
theorem mem_dictSetdefault (m : List (String × String)) (k v : String)
    (p : String × String) (hp : p ∈ dictSetdefault m k v) : p ∈ m ∨ p = (k, v) := by
  unfold dictSetdefault at hp
  by_cases hmem : m.any (fun q => q.1 == k) = true
  · rw [if_pos hmem] at hp
    exact Or.inl hp
  · rw [if_neg hmem] at hp
    rcases List.mem_append.mp hp with h | h
    · exact Or.inl h
    · exact Or.inr (List.mem_singleton.mp h)

/-- After `setdefault`, the key is present. -/
theorem dictSetdefault_hasKey (m : List (String × String)) (k v : String) :
    (dictSetdefault m k v).any (fun p => p.1 == k) = true := by
  unfold dictSetdefault
  by_cases hmem : m.any (fun q => q.1 == k) = true
  · rw [if_pos hmem]
    exact hmem
  · rw [if_neg hmem]
    simp [List.any_append]

/-- `setdefault` never changes the result of a lookup that succeeds. -/
theorem dictFind?_dictSetdefault_of_isSome (m : List (String × String)) (k v k' : String)
    (h : (dictFind? m k').isSome = true) :
    dictFind? (dictSetdefault m k v) k' = dictFind? m k' := by
  unfold dictSetdefault
  by_cases hmem : m.any (fun q => q.1 == k) = true
  · rw [if_pos hmem]
  · rw [if_neg hmem]
    unfold dictFind? at h ⊢
    cases hf : List.find? (fun p => p.1 == k') m with
    | none => simp [hf] at h
    | some q => simp [List.find?_append, hf, Option.or]

end Scrape

namespace Scrape

/-- The row-loop fold is the fold of `dictInsert` over the pairs the rows
contribute. -/
theorem foldl_insertRow_eq (rows : List Node) :
    ∀ m0 : List (String × String),
      rows.foldl insertRow m0 =
        (rows.filterMap rowPair?).foldl (fun m lv => dictInsert m lv.1 lv.2) m0 := by
  induction rows with
  | nil => intro m0; rfl
  | cons r rs ih =>
    intro m0
    rw [List.foldl_cons, List.filterMap_cons]
    cases hr : rowPair? r with
    | none => rw [show insertRow m0 r = m0 by rw [insertRow, hr]]; exact ih m0
    | some lv =>
      rw [show insertRow m0 r = dictInsert m0 lv.1 lv.2 by rw [insertRow, hr],
        List.foldl_cons]
      exact ih (dictInsert m0 lv.1 lv.2)

/-- Lookup after folding `dictInsert` over a pair list: the LAST pair with
the sought key wins; when no pair has the key, the initial dict answers. -/
theorem dictFind?_foldl_insert (ps : List (String × String)) (k : String) :
    ∀ m0 : List (String × String),
      dictFind? (ps.foldl (fun m lv => dictInsert m lv.1 lv.2) m0) k =
        match ps.reverse.find? (fun p => p.1 == k) with
        | some q => some q.2
        | none => dictFind? m0 k := by
  induction ps with
  | nil => intro m0; rfl
  | cons p ps ih =>
    intro m0
    rw [List.foldl_cons, ih (dictInsert m0 p.1 p.2), List.reverse_cons, List.find?_append]
    cases hf : ps.reverse.find? (fun q => q.1 == k) with
    | some q => rfl
    | none =>
      rw [dictFind?_dictInsert]
      by_cases hpk : p.1 = k
      · have : (p.1 == k) = true := by simp [hpk]
        simp [List.find?_cons, this, Option.or, hpk]
      · have : (p.1 == k) = false := by simp [hpk]
        simp [List.find?_cons, this, Option.or, hpk]

/-- The table-phase dict equals the `dictInsert` fold over the row pairs of
the matched table. -/
theorem tableFields_eq_foldl (doc : Doc) (tb : Node) (h : findInfobox doc = some tb) :
    tableFields doc = (rowPairs tb).foldl (fun m lv => dictInsert m lv.1 lv.2) [] := by
  simp only [tableFields, h, rowPairs]
  exact foldl_insertRow_eq _ _

mutual

/-- A `find` on a subtree comes back empty exactly when no element of the
subtree satisfies the predicate. -/
theorem findNode_eq_none_iff (p : Node → Bool) :
    (n : Node) → (findNode p n = none ↔ ∀ m ∈ n.elems, p m = false)
  | .text s => by simp [findNode, Node.elems]
  | .elem t c i cs => by
    have ih := findForest_eq_none_iff p cs
    by_cases hp : p (.elem t c i cs) = true
    · simp [findNode, Node.elems, hp]
    · have hp' : p (.elem t c i cs) = false := by
        cases hh : p (.elem t c i cs) with
        | true => exact absurd hh hp
        | false => rfl
      simp [findNode, Node.elems, hp', ih]

/-- A `find` on a forest comes back empty exactly when no element of the
forest satisfies the predicate. -/
theorem findForest_eq_none_iff (p : Node → Bool) :
    (ns : List Node) → (findForest p ns = none ↔ ∀ m ∈ elemsForest ns, p m = false)
  | [] => by simp [findForest, elemsForest]
  | n :: ns => by
    have ih1 := findNode_eq_none_iff p n
    have ih2 := findForest_eq_none_iff p ns
    cases hf : findNode p n with
    | some m =>
      constructor
      · intro hcontra
        rw [findForest, hf] at hcontra
        exact absurd hcontra (by simp)
      · intro hall
        have h1 : findNode p n = none := ih1.mpr (fun m hm =>
          hall m (by rw [elemsForest]; exact List.mem_append.mpr (Or.inl hm)))
        rw [h1] at hf
        exact absurd hf (by simp)
    | none =>
      rw [findForest, hf]
      rw [elemsForest]
      constructor
      · intro hnone m hm
        rcases List.mem_append.mp hm with h | h
        · exact (ih1.mp hf) m h
        · exact (ih2.mp hnone) m h
      · intro hall
        exact ih2.mpr (fun m hm => hall m (List.mem_append.mpr (Or.inr hm)))

end

end Scrape

namespace Scrape

/-- A fold that appends `(e.1, v)` whenever `g e = some v` is the
`filterMap` of the entries, prefixed by the accumulator. -/
theorem foldl_select_eq (g : (String × List String) → Option String) :
    ∀ (l : List (String × List String)) (acc : List (String × String)),
      l.foldl
        (fun sel e =>
          match g e with
          | some v => sel ++ [(e.1, v)]
          | none => sel) acc =
      acc ++ l.filterMap (fun e => (g e).map (fun v => (e.1, v))) := by
  intro l
  induction l with
  | nil => intro acc; simp
  | cons e l ih =>
    intro acc
    rw [List.foldl_cons, List.filterMap_cons]
    cases hg : g e with
    | none => simp only [hg, Option.map_none]; exact ih acc
    | some v =>
      simp only [hg, Option.map_some]
      rw [ih (acc ++ [(e.1, v)]), List.append_assoc]
      rfl

/-- The inner hint loop of the source equals the spec's
"first hint whose lowercased text occurs in some label" search. -/
theorem findHintValue_eq_findSome? (info : List (String × String)) :
    ∀ hints : List String,
      findHintValue info hints =
        hints.findSome? (fun hint =>
          (info.find? (fun p => strContains (pyLower p.1) (pyLower hint))).map
            (fun p => p.2)) := by
  intro hints
  induction hints with
  | nil => rfl
  | cons h hs ih =>
    rw [findHintValue, List.findSome?_cons]
    cases hf : info.find? (fun p => strContains (pyLower p.1) (pyLower h)) with
    | some p => simp [hf]
    | none => simp [hf, ih]

/-- Both components of a pair produced by a table row are non-empty. -/
theorem rowPair?_nonempty (row : Node) (lv : String × String)
    (h : rowPair? row = some lv) : ¬lv.1 = "" ∧ ¬lv.2 = "" := by
  unfold rowPair? at h
  cases hth : findNode (hasTag "th") row with
  | none => rw [hth] at h; exact absurd h (by simp)
  | some headerCell =>
    cases htd : findNode (hasTag "td") row with
    | none => rw [hth, htd] at h; exact absurd h (by simp)
    | some dataCell =>
      rw [hth, htd] at h
      simp only at h
      by_cases hc : (!(cellText headerCell).isEmpty && !(cellText dataCell).isEmpty) = true
      · rw [if_pos hc] at h
        injection h with h
        subst h
        simp only [Bool.and_eq_true, Bool.not_eq_true'] at hc
        constructor
        · intro he
          rw [← String.isEmpty_iff] at he
          rw [hc.1] at he
          exact Bool.false_ne_true he
        · intro he
          rw [← String.isEmpty_iff] at he
          rw [hc.2] at he
          exact Bool.false_ne_true he
      · rw [if_neg hc] at h
        exact absurd h (by simp)

/-- Every value inserted during the row scan is non-empty. -/
theorem foldl_insertRow_values_nonempty (rows : List Node) :
    ∀ m0 : List (String × String), (∀ p ∈ m0, ¬p.2 = "") →
      ∀ p ∈ rows.foldl insertRow m0, ¬p.2 = "" := by
  induction rows with
  | nil => intro m0 h0; exact h0
  | cons r rs ih =>
    intro m0 h0
    rw [List.foldl_cons]
    apply ih
    intro p hp
    unfold insertRow at hp
    cases hr : rowPair? r with
    | none => rw [hr] at hp; exact h0 p hp
    | some lv =>
      rw [hr] at hp
      simp only at hp
      rcases mem_dictInsert m0 lv.1 lv.2 p hp with heq | hmem
      · rw [heq]
        exact (rowPair?_nonempty r lv hr).2
      · exact h0 p hmem

/-- Every value in the table-phase dict is non-empty. -/
theorem tableFields_values_nonempty (doc : Doc) :
    ∀ p ∈ tableFields doc, ¬p.2 = "" := by
  unfold tableFields
  cases hfind : findInfobox doc with
  | none => simp
  | some tb =>
    simp only
    exact foldl_insertRow_values_nonempty _ [] (by simp)

/-- Replacing the one-character pattern `" "` maps every space to an
underscore and leaves every other character unchanged. -/
theorem strReplace_space_eq_map (l : List Char) :
    strReplace [' '] ['_'] l = l.map (fun c => if c = ' ' then '_' else c) := by
  induction l with
  | nil => simp [strReplace]
  | cons c cs ih =>
    by_cases hc : c = ' '
    · subst hc
      have hpre : isPrefixList [' '] (' ' :: cs) = true := by
        simp [isPrefixList]
      simp [strReplace, hpre, ih]
    · have hc' : ¬(' ' = c) := fun h => hc h.symm
      have hpre : isPrefixList [' '] (c :: cs) = false := by
        simp [isPrefixList, hc']
      simp [strReplace, hpre, hc, ih]

end Scrape

namespace Scrape

/-- C1: for every label-to-value mapping, the selector realizes exactly the
spec's nested scan — for each of the 14 canonical entries, hints are tried
in order, labels in insertion order, taking the value of the first label
whose lowercased text contains the lowercased hint, stopping at the first
hit and omitting unmatched entries — and in particular a label
"Governing body" satisfies canonical field "Mayor/Leader". -/
theorem c1_selector_follows_spec :
    (∀ info : List (String × String), select_interesting_fields info = selectSpec info) ∧
    select_interesting_fields [("Governing body", "Council")] =
      [("Mayor/Leader", "Council")] := by
  constructor
  · intro info
    have h := foldl_select_eq (fun e => findHintValue info e.2) desired_to_label_hints []
    refine Eq.trans ?_ (Eq.trans h ?_)
    · rfl
    · rw [List.nil_append, selectSpec]
      have hfun : (fun e : String × List String =>
            (findHintValue info e.2).map (fun v => (e.1, v))) =
          (fun e : String × List String =>
            (e.2.findSome? (fun hint =>
              (info.find? (fun p => strContains (pyLower p.1) (pyLower hint))).map
                (fun p => p.2))).map (fun v => (e.1, v))) := by
        funext e
        rw [findHintValue_eq_findSome?]
      rw [hfun]
  · decide

/-- C2 counterexample: in `docGeoOnly` no table matches any of the three
infobox class patterns, yet the parsed `fields` mapping is NOT empty (the
geo element contributes a "Coordinates" entry) and the selector output is
not empty either, refuting the claim at this input. -/
theorem c2_counterexample :
    (∀ m ∈ elemsForest docGeoOnly,
      (isTableWithClass "infobox geography vcard" m || isTableWithClass "infobox vcard" m ||
        isTableWithClass "infobox" m) = false) ∧
    ¬((parse_infobox docGeoOnly).2 = [] ∧
      select_interesting_fields (parse_infobox docGeoOnly).2 = []) := by decide

/-- C2 amended: when no element is a table matching one of the three
patterns AND no element carries the geo marker class, the parser returns
an empty fields mapping and the selector yields an empty mapping. -/
theorem c2_amended_no_table_no_geo (doc : Doc)
    (htab : ∀ m ∈ elemsForest doc,
      (isTableWithClass "infobox geography vcard" m || isTableWithClass "infobox vcard" m ||
        isTableWithClass "infobox" m) = false)
    (hgeo : ∀ m ∈ elemsForest doc, isGeoElem m = false) :
    (parse_infobox doc).2 = [] ∧
      select_interesting_fields (parse_infobox doc).2 = [] := by
  have hsplit : ∀ m ∈ elemsForest doc,
      isTableWithClass "infobox geography vcard" m = false ∧
      isTableWithClass "infobox vcard" m = false ∧
      isTableWithClass "infobox" m = false := by
    intro m hm
    have h := htab m hm
    simp only [Bool.or_eq_false_iff] at h
    exact ⟨h.1.1, h.1.2, h.2⟩
  have h1 : findForest (isTableWithClass "infobox geography vcard") doc = none :=
    (findForest_eq_none_iff _ doc).mpr (fun m hm => (hsplit m hm).1)
  have h2 : findForest (isTableWithClass "infobox vcard") doc = none :=
    (findForest_eq_none_iff _ doc).mpr (fun m hm => (hsplit m hm).2.1)
  have h3 : findForest (isTableWithClass "infobox") doc = none :=
    (findForest_eq_none_iff _ doc).mpr (fun m hm => (hsplit m hm).2.2)
  have htb : findInfobox doc = none := by
    rw [findInfobox, h1, h2, h3]
  have hg : findGeo doc = none := by
    rw [findGeo]
    exact (findForest_eq_none_iff _ doc).mpr hgeo
  have hfields : (parse_infobox doc).2 = [] := by
    simp [parse_infobox, hg, tableFields, htb]
  refine ⟨hfields, ?_⟩
  rw [hfields]
  decide

/-- C2 amended, witness: a document with neither a qualifying table nor a
geo element parses to empty fields and empty selection. -/
theorem c2_amended_witness :
    (∀ m ∈ elemsForest docPlain,
      (isTableWithClass "infobox geography vcard" m || isTableWithClass "infobox vcard" m ||
        isTableWithClass "infobox" m) = false) ∧
    (∀ m ∈ elemsForest docPlain, isGeoElem m = false) ∧
    ((parse_infobox docPlain).2 = [] ∧
      select_interesting_fields (parse_infobox docPlain).2 = []) :=
  ⟨by decide, by decide, c2_amended_no_table_no_geo docPlain (by decide) (by decide)⟩

/-- C3 counterexample: a document whose geo element has empty text makes
the parser store the EMPTY string under "Coordinates", refuting the claim
that every stored value is non-empty. -/
theorem c3_counterexample :
    (parse_infobox docGeoEmpty).2 = [("Coordinates", "")] ∧
    ¬(∀ p ∈ (parse_infobox docGeoEmpty).2, ¬p.2 = "") := by decide

/-- C3 amended: every value stored by the parser is non-empty EXCEPT
possibly the entry under the key "Coordinates" inserted from the geo
marker element, whose normalized text may be empty; table rows with an
empty normalized label or value are dropped. -/
theorem c3_amended_values_nonempty (doc : Doc) (p : String × String)
    (hp : p ∈ (parse_infobox doc).2) : ¬p.2 = "" ∨ p.1 = "Coordinates" := by
  have hp' : p ∈ (match findGeo doc with
      | some g => dictSetdefault (tableFields doc) "Coordinates" (cellText g)
      | none => tableFields doc) := hp
  cases hg : findGeo doc with
  | none =>
    rw [hg] at hp'
    exact Or.inl (tableFields_values_nonempty doc p hp')
  | some g =>
    rw [hg] at hp'
    simp only at hp'
    rcases mem_dictSetdefault _ _ _ p hp' with hmem | heq
    · exact Or.inl (tableFields_values_nonempty doc p hmem)
    · right
      rw [heq]

/-- C3 amended, witness: the Population entry of `docPopulation` is in the
parsed fields and satisfies the amended disjunction. -/
theorem c3_amended_witness :
    ("Population", "38,000,000") ∈ (parse_infobox docPopulation).2 ∧
    (¬("Population", "38,000,000").2 = "" ∨ ("Population", "38,000,000").1 = "Coordinates") :=
  ⟨by decide, c3_amended_values_nonempty docPopulation ("Population", "38,000,000") (by decide)⟩

end Scrape

namespace Scrape

/-- C4: when the matched infobox table has rows whose headers normalize to
the same label, the final value stored under that label is the value of
the LAST such row in the top-to-bottom scan (here `q` is the last row pair
with key `k`, found by searching the reversed row-pair list). -/
theorem c4_duplicate_label_last_wins (doc : Doc) (tb : Node) (k : String)
    (q : String × String)
    (htb : findInfobox doc = some tb)
    (hq : (rowPairs tb).reverse.find? (fun p => p.1 == k) = some q) :
    dictFind? (parse_infobox doc).2 k = some q.2 := by
  have ht : dictFind? (tableFields doc) k = some q.2 := by
    rw [tableFields_eq_foldl doc tb htb, dictFind?_foldl_insert (rowPairs tb) k []]
    simp [hq]
  have hparse : (parse_infobox doc).2 = (match findGeo doc with
      | some g => dictSetdefault (tableFields doc) "Coordinates" (cellText g)
      | none => tableFields doc) := rfl
  rw [hparse]
  cases hg : findGeo doc with
  | none => exact ht
  | some g =>
    simp only
    rw [dictFind?_dictSetdefault_of_isSome]
    · exact ht
    · rw [ht]
      rfl

/-- C4 witness: two Elevation rows with values "10 m" then "520 m"; the
parser's final Elevation value is "520 m". -/
theorem c4_witness :
    findInfobox docDupElevation = some tblDupElevation ∧
    (rowPairs tblDupElevation).reverse.find? (fun p => p.1 == "Elevation") =
      some ("Elevation", "520 m") ∧
    dictFind? (parse_infobox docDupElevation).2 "Elevation" = some "520 m" :=
  ⟨rfl, by decide,
   c4_duplicate_label_last_wins docDupElevation tblDupElevation "Elevation"
     ("Elevation", "520 m") rfl (by decide)⟩

/-- C5: when the document has a geo-classed element, the parser inserts its
whitespace-normalized text under the exact key "Coordinates" if and only
if the table scan left that key unset; when the table already set it, the
fields mapping is unchanged by the geo element. -/
theorem c5_geo_only_when_unset (doc : Doc) (g : Node) (hg : findGeo doc = some g) :
    (parse_infobox doc).2 =
      if (tableFields doc).any (fun p => p.1 == "Coordinates") then tableFields doc
      else tableFields doc ++ [("Coordinates", cellText g)] := by
  have hparse : (parse_infobox doc).2 = (match findGeo doc with
      | some g => dictSetdefault (tableFields doc) "Coordinates" (cellText g)
      | none => tableFields doc) := rfl
  rw [hparse, hg]
  simp only [dictSetdefault]

/-- C5 witness: a document whose table already has a Coordinates row and
which also carries a geo element. -/
theorem c5_witness :
    findGeo docCoordBoth = some geoSpan ∧
    (parse_infobox docCoordBoth).2 =
      (if (tableFields docCoordBoth).any (fun p => p.1 == "Coordinates")
       then tableFields docCoordBoth
       else tableFields docCoordBoth ++ [("Coordinates", cellText geoSpan)]) :=
  ⟨rfl, c5_geo_only_when_unset docCoordBoth geoSpan rfl⟩

/-- C6: a row with header "Population" and data cell text
"  38,000,000  \n " parses to the value "38,000,000" under key
"Population", and the selector emits it under canonical key
"Population". -/
theorem c6_population_whitespace :
    (parse_infobox docPopulation).2 = [("Population", "38,000,000")] ∧
    select_interesting_fields (parse_infobox docPopulation).2 =
      [("Population", "38,000,000")] := by decide

end Scrape

namespace Scrape

/-- C7: with a place-name argument present, the CLI exits with status 2 on
either transport failure, printing one line that distinguishes HTTP-status
failures from network failures, and exits with status 0 in both "no data"
conditions — no fields parsed, or fields parsed but none selected — each
ending its output with its own explanatory message. -/
theorem c7_transport_and_no_data_exits (argv : List String) (h : 2 ≤ argv.length) :
    (∀ m, mainModel argv (.httpError m) =
      { exitCode := 2, output := ["HTTP error fetching page: " ++ m],
        networkAttempted := true }) ∧
    (∀ m, mainModel argv (.networkError m) =
      { exitCode := 2, output := ["Network error fetching page: " ++ m],
        networkAttempted := true }) ∧
    (∀ (doc : Doc) (url : String), (parse_infobox doc).2 = [] →
      (mainModel argv (.success doc url)).exitCode = 0 ∧
      (mainModel argv (.success doc url)).output.getLast? = some noInfoboxMessage) ∧
    (∀ (doc : Doc) (url : String), ¬(parse_infobox doc).2 = [] →
      select_interesting_fields (parse_infobox doc).2 = [] →
      (mainModel argv (.success doc url)).exitCode = 0 ∧
      (mainModel argv (.success doc url)).output.getLast? = some noCommonFieldsMessage) := by
  have hlt : ¬argv.length < 2 := by omega
  refine ⟨fun m => ?_, fun m => ?_, fun doc url hp => ?_, fun doc url hp hs => ?_⟩
  · rw [mainModel, if_neg hlt]
  · rw [mainModel, if_neg hlt]
  · have he : (parse_infobox doc).2.isEmpty = true := by
      rw [hp]
      rfl
    rw [mainModel, if_neg hlt]
    simp only [he, if_pos]
    exact ⟨by trivial, List.getLast?_concat _⟩
  · have he : (parse_infobox doc).2.isEmpty = false := by
      cases hh : (parse_infobox doc).2 with
      | nil => exact absurd hh hp
      | cons a l => rfl
    have hs' : (select_interesting_fields (parse_infobox doc).2).isEmpty = true := by
      rw [hs]
      rfl
    rw [mainModel, if_neg hlt]
    simp only [he, hs', Bool.false_eq_true, if_false, if_pos]
    exact ⟨by trivial, List.getLast?_concat _⟩

/-- C7 witness: concrete runs with two arguments. -/
theorem c7_witness :
    mainModel ["prog", "Paris"] (.httpError "404 Client Error") =
      { exitCode := 2, output := ["HTTP error fetching page: 404 Client Error"],
        networkAttempted := true } ∧
    (mainModel ["prog", "Paris"] (.success [] "u")).exitCode = 0 ∧
    (mainModel ["prog", "Paris"] (.success [] "u")).output.getLast? =
      some noInfoboxMessage :=
  ⟨(c7_transport_and_no_data_exits ["prog", "Paris"] (by decide)).1 "404 Client Error",
   ((c7_transport_and_no_data_exits ["prog", "Paris"] (by decide)).2.2.1 [] "u" (by decide)).1,
   ((c7_transport_and_no_data_exits ["prog", "Paris"] (by decide)).2.2.1 [] "u" (by decide)).2⟩

/-- C8: with no place-name argument the CLI prints the usage message,
exits with status 1, and never reaches the network call. -/
theorem c8_usage_no_network (argv : List String) (fetch : FetchOutcome)
    (h : argv.length < 2) :
    mainModel argv fetch =
      { exitCode := 1, output := [usageMessage], networkAttempted := false } := by
  rw [mainModel, if_pos h]

/-- C8 witness: invocation with only the program name. -/
theorem c8_witness :
    mainModel ["prog"] (.networkError "dns failure") =
      { exitCode := 1, output := [usageMessage], networkAttempted := false } :=
  c8_usage_no_network ["prog"] (.networkError "dns failure") (by decide)

/-- C9: the request path replaces every space of the place name with an
underscore and changes no other character; the URL is the fixed base with
that canonical name appended, with no further escaping. -/
theorem c9_space_replacement (s : String) :
    canonicalName s = String.mk (s.data.map (fun c => if c = ' ' then '_' else c)) ∧
    requestUrl s = "https://en.wikipedia.org/wiki/" ++ canonicalName s := by
  constructor
  · rw [canonicalName, strReplace_space_eq_map]
  · rfl

/-- C10: a document containing an element with the geo marker class always
yields a fields mapping containing the key "Coordinates", hence a
non-empty mapping, table or no table. -/
theorem c10_geo_implies_coordinates (doc : Doc) (m : Node)
    (hm : m ∈ elemsForest doc) (hgeo : isGeoElem m = true) :
    (parse_infobox doc).2.any (fun p => p.1 == "Coordinates") = true ∧
    ¬(parse_infobox doc).2 = [] := by
  have hfind : ¬findGeo doc = none := by
    intro hnone
    have hall := (findForest_eq_none_iff isGeoElem doc).mp hnone
    rw [hall m hm] at hgeo
    exact Bool.false_ne_true hgeo
  cases hg : findGeo doc with
  | none => exact absurd hg hfind
  | some g =>
    have hparse : (parse_infobox doc).2 =
        dictSetdefault (tableFields doc) "Coordinates" (cellText g) := by
      have hmatch : (parse_infobox doc).2 = (match findGeo doc with
          | some g => dictSetdefault (tableFields doc) "Coordinates" (cellText g)
          | none => tableFields doc) := rfl
      rw [hmatch, hg]
    rw [hparse]
    refine ⟨dictSetdefault_hasKey _ _ _, ?_⟩
    intro hnil
    have hkey := dictSetdefault_hasKey (tableFields doc) "Coordinates" (cellText g)
    rw [hnil] at hkey
    simp at hkey

/-- C10 witness: the lone geo span of `docGeoOnly`. -/
theorem c10_witness :
    Node.elem "span" ["geo"] none [Node.text "48.86; 2.35"] ∈ elemsForest docGeoOnly ∧
    isGeoElem (Node.elem "span" ["geo"] none [Node.text "48.86; 2.35"]) = true ∧
    ((parse_infobox docGeoOnly).2.any (fun p => p.1 == "Coordinates") = true ∧
      ¬(parse_infobox docGeoOnly).2 = []) :=
  ⟨List.mem_singleton.mpr rfl, rfl,
   c10_geo_implies_coordinates docGeoOnly
     (Node.elem "span" ["geo"] none [Node.text "48.86; 2.35"])
     (List.mem_singleton.mpr rfl) rfl⟩

end Scrape
